import Mathlib

/-!
Verification of the `ci-overview` tool against its specification.

The Python sources are shallowly embedded as executable Lean definitions:

* `overview.py` / `pull_requests.py` — pull-request fetching and status
  classification (`get_check_statuses`), including the `[WIP]`/draft filter
  and the synthetic `EXPECTED` fallback;
* `overview.py` / `checks.py` — resolution of the three-level
  `ROLE/CONTAINER/CHECK.env` configuration tree (`get_all_checks`) with
  cascaded `DEFAULTS.env` files;
* `overview.py` / `terminal.py` — table layout (`items_per_row`,
  `output_check_table`) and ANSI rendering (`format_status`);
* `http.py` — the service-mode publication of rendered snapshots.

Python dictionaries are modelled as association lists whose lookup is
right-biased (the most recently inserted binding wins), so `d1 | d2` and
`d1.update(d2)` become list append.  Machine-level details (GraphQL
transport, terminals, clocks) are parameters: the generation time `NOW`,
the terminal width and the fetched pull-request list are passed in
explicitly.  Fallible code returns `Except String`.
-/

namespace CIOverview

/-- The five valid commit-status states (the `State` alias and
`VALID_STATUSES` tuple in `pull_requests.py` and `overview.py`). -/
inductive State
  | EXPECTED
  | PENDING
  | SUCCESS
  | FAILURE
  | ERROR
deriving DecidableEq, Repr

/-- One commit-status context as returned by the GraphQL query in
`pull_requests.py`/`overview.py` (fields `context`, `state`, `createdAt`). -/
structure Context where
  context : String
  state : State
  createdAt : String
deriving DecidableEq, Repr

/-- One pull request node as returned by the GraphQL query: number, title,
draft flag, and its single most recent commit (`commits(last: 1)`) with that
commit's sha and status contexts.  A commit whose `status` is `null` is
modelled by `statusContexts = none`. -/
structure PullRequest where
  number : Nat
  title : String
  isDraft : Bool
  commitSha : String
  statusContexts : Option (List Context)
deriving DecidableEq, Repr

/-- The `CheckStatus`/`Check` TypedDict of `pull_requests.py` and
`overview.py` after classification: all seven keys are always set by
`get_check_statuses`; `targetUrl` is read by `get_status_url` via
`status.get('targetUrl')` but never populated by the GraphQL query, so it is
an optional field defaulting to `none`. -/
structure CheckStatus where
  state : State
  context : String
  createdAt : String
  repo : String
  pr : Nat
  commit_sha : String
  ci_name : String
  targetUrl : Option String := none
deriving DecidableEq, Repr

/-- `INDENT` from `overview.py` line 28 and `terminal.py` line 17. -/
def INDENT : String := "  "

/-- `SEPARATOR` from `overview.py` line 29 and `terminal.py` line 18. -/
def SEPARATOR : String := "  "

/-- The `items_per_row` computation of `overview.py` `output_check_table`
(lines 148-149) and `terminal.py` `TextOutput.overview_table` (lines 40-41):
`(terminal_width - 2*len(INDENT) + len(SEPARATOR)) // (len('#') + prnum_len
+ len(SEPARATOR))`.  Python `//` is floor division, i.e. `Int.fdiv`. -/
def itemsPerRow (terminalWidth : Int) (prnumLen : Nat) : Int :=
  Int.fdiv (terminalWidth - 2 * (INDENT.length : Int) + (SEPARATOR.length : Int))
    (("#".length : Int) + (prnumLen : Int) + (SEPARATOR.length : Int))

/-- ANSI colour selection from `terminal.py` `TextOutput.format_status`
(lines 67-73): the dict literal keyed by the status state. -/
def colourCode : State → String
  | .PENDING => "33"
  | .EXPECTED => "90"
  | .SUCCESS => "32"
  | .ERROR => "31"
  | .FAILURE => "31;1"

/-- The colour table exactly as the spec states it (section 4.4): EXPECTED
maps to dim/grey (SGR 90), PENDING to yellow (33), SUCCESS to green (32),
FAILURE to bold red (31;1), ERROR to plain red (31).  Written from the
spec's words, to be compared with `colourCode`, which is written from the
source. -/
def specColourTable : State → String
  | .EXPECTED => "90"
  | .PENDING => "33"
  | .SUCCESS => "32"
  | .FAILURE => "31;1"
  | .ERROR => "31"

/-- The recency test of `terminal.py` line 75 and `overview.py` line 188:
`status['createdAt'] > recent_cutoff`, a strict lexicographic comparison of
the two timestamp strings (which, in the fixed `%Y-%m-%dT%H:%M:%SZ` format,
is chronological order). -/
def isRecent (createdAt cutoff : String) : Bool := decide (cutoff < createdAt)

/-- `get_status_url` from `pull_requests.py` lines 56-63: an explicit
`targetUrl` wins when truthy (non-empty); otherwise the GitHub pull-request
URL is built from `repo` and `pr`, which are always present after
classification, so the fallback never fails. -/
def get_status_url (st : CheckStatus) : Option String :=
  match st.targetUrl with
  | some u =>
    if u = "" then some ("https://github.com/" ++ st.repo ++ "/pull/" ++ toString st.pr)
    else some u
  | none => some ("https://github.com/" ++ st.repo ++ "/pull/" ++ toString st.pr)

/-- `TextOutput.format_status` from `terminal.py` lines 56-81: optional
hyperlink escape, the colour code, an optional `;7` reverse-video marker for
recent statuses, the cell text, and the reset code. -/
def format_status (recentCutoff : String) (st : CheckStatus) (text : String) : String :=
  let url := get_status_url st
  let openUrl := match url with
    | some u => "\x1b]8;;" ++ u ++ "\x1b\\"
    | none => ""
  let closeUrl := match url with
    | some _ => "\x1b]8;;\x1b\\"
    | none => ""
  let recent := if isRecent st.createdAt recentCutoff then ";7" else ""
  openUrl ++ "\x1b[" ++ colourCode st.state ++ recent ++ "m" ++ text ++ closeUrl ++ "\x1b[0m"

/-- Claim C3, counterexample: the claim asserts `items_per_row ≥ 1` for
every display width "including width 0", but the source has no minimum
clamp: at `terminal_width = 0` and `prnum_len = 1` the Python floor division
yields `(0 - 4 + 2) // (1 + 1 + 2) = -1`, which is not at least 1. -/
theorem items_per_row_claim_cex : ¬ (1 ≤ itemsPerRow 0 1) := by decide

/-- Claim C3, amended: `items_per_row` has no minimum clamp; it is at least
1 exactly when the display width is at least `label_width + 5` (the width of
one cell plus the two-column indent minus one shared separator).  For
narrower displays it is 0 or negative (0 causes a division by zero in the
subsequent row grouping). -/
theorem items_per_row_ge_one_iff (w : Int) (p : Nat) :
    1 ≤ itemsPerRow w p ↔ (p : Int) + 5 ≤ w := by
  have h1 : (("#".length : Nat) : Int) = 1 := rfl
  have h2 : ((INDENT.length : Nat) : Int) = 2 := rfl
  have h3 : ((SEPARATOR.length : Nat) : Int) = 2 := rfl
  have hpos : (0 : Int) < ("#".length : Int) + (p : Int) + (SEPARATOR.length : Int) := by
    rw [h1, h3]; omega
  unfold itemsPerRow
  rw [Int.fdiv_eq_ediv _ (le_of_lt hpos), Int.le_ediv_iff_mul_le hpos, h1, h2, h3]
  omega

/-- Claim C6: the text renderer's colour is a fixed total function of the
state, and it agrees with the table stated in the spec: EXPECTED is
dim/grey, PENDING yellow, SUCCESS green, FAILURE bold red, ERROR red. -/
theorem text_renderer_colour_table : ∀ s : State, colourCode s = specColourTable s := by
  intro s; cases s <;> rfl

/-- Claim C7: recency marking is a strict comparison.  A status whose
`createdAt` equals the cutoff is not recent, and a status is recent exactly
when its `createdAt` is strictly greater than the cutoff. -/
theorem recency_strict :
    (∀ t : String, isRecent t t = false) ∧
    (∀ created cutoff : String, isRecent created cutoff = true ↔ cutoff < created) := by
  constructor
  · intro t
    simp only [isRecent, decide_eq_false_iff_not]
    exact lt_irrefl t
  · intro created cutoff
    simp only [isRecent, decide_eq_true_eq]

/-- Python `str.partition('/')` as used on the repository argument in
`pull_requests.py` line 70 / `overview.py` line 80: split at the first `/`;
when there is none the result is `(s, '', '')`. -/
def partitionSlash (s : String) : String × String × String :=
  match s.data.dropWhile (fun c => !(c == '/')) with
  | [] => (s, "", "")
  | _ :: tail =>
    (String.mk (s.data.takeWhile (fun c => !(c == '/'))), "/", String.mk tail)

/-- The owner part, in the claim's words: the text before the first `/`. -/
def beforeFirstSlash (s : String) : String :=
  String.mk (s.data.takeWhile (fun c => !(c == '/')))

/-- The repository-name part, in the claim's words: everything after the
first `/`. -/
def afterFirstSlash (s : String) : String :=
  String.mk ((s.data.dropWhile (fun c => !(c == '/'))).tail)

/-- Python `str.startswith`, modelled character-wise: the candidate marker
must be a prefix of the title's character sequence, case-sensitively. -/
def strStartsWith (s marker : String) : Bool := marker.data.isPrefixOf s.data

/-- The pull-request filter of `pull_requests.py` line 78 / `overview.py`
line 88: a pull request is skipped (`continue`) when its draft flag is set
or its title starts with the literal `[WIP]`. -/
def keepPull (p : PullRequest) : Bool :=
  !(p.isDraft || strStartsWith p.title "[WIP]")

/-- The contexts dict `{c['context']: c for c in commit['status']['contexts']}`
of `pull_requests.py` line 82 (empty when the commit status is null), read
via `.get(check)`.  A dict comprehension lets a later duplicate key
overwrite an earlier one, so lookup takes the last matching context. -/
def lookupContext (p : PullRequest) (check : String) : Option Context :=
  ((p.statusContexts.getD []).reverse).find? (fun c => c.context == check)

/-- One classified record, from `pull_requests.py` lines 84-93 /
`overview.py` lines 94-103: `contexts.get(check, fallback) | {'repo': repo,
'pr': ..., 'commit_sha': ..., 'ci_name': names_table[check]}` where
`fallback = {'context': check, 'state': 'EXPECTED', 'createdAt':
NOW.strftime(TIMEFORMAT)}`.  The generation time is the parameter `now`;
the `names_table` dict is modelled as a total lookup, matching the code's
assumption that every requested check has an entry. -/
def mkRecord (repo now : String) (names : String → String) (check : String)
    (p : PullRequest) : CheckStatus :=
  match lookupContext p check with
  | some c =>
    { state := c.state, context := c.context, createdAt := c.createdAt,
      repo := repo, pr := p.number, commit_sha := p.commitSha,
      ci_name := names check, targetUrl := none }
  | none =>
    { state := State.EXPECTED, context := check, createdAt := now,
      repo := repo, pr := p.number, commit_sha := p.commitSha,
      ci_name := names check, targetUrl := none }

/-- One `statuses[check].append(...)` on the defaultdict of lists. -/
def addRecord (st : String → List CheckStatus) (check : String) (r : CheckStatus) :
    String → List CheckStatus :=
  fun k => if k = check then st k ++ [r] else st k

/-- The nested loops of `get_check_statuses`: over the fetched pull requests
(skipping drafts and `[WIP]` titles) and, inside, over the requested check
names.  The `defaultdict(list)` starts empty, i.e. `[]` at every key. -/
def processPulls (repo now : String) (names : String → String) (checks : List String)
    (pulls : List PullRequest) : String → List CheckStatus :=
  pulls.foldl
    (fun st p =>
      if keepPull p then
        checks.foldl
          (fun st2 check => addRecord st2 check (mkRecord repo now names check p)) st
      else st)
    (fun _ => [])

/-- `get_check_statuses` from `pull_requests.py` lines 66-94 / `overview.py`
lines 76-104.  The repository string is split at its first `/` (a
`ValueError` when there is none, raised before the GraphQL query runs); the
GraphQL call is the parameter `fetch`, applied to the owner, repository name
and branch exactly as the code passes them. -/
def get_check_statuses (repo branch now : String)
    (fetch : String → String → String → List PullRequest)
    (checks : List String) (names : String → String) :
    Except String (String → List CheckStatus) :=
  let po := partitionSlash repo
  if po.2.1 = "" then Except.error "repository name must contain a slash"
  else Except.ok (processPulls repo now names checks (fetch po.1 po.2.2 branch))

theorem addRecord_other (st : String → List CheckStatus) (check k : String)
    (r : CheckStatus) (h : k ≠ check) : addRecord st check r k = st k := by
  simp [addRecord, h]

theorem foldChecks_apply (repo now : String) (names : String → String) (p : PullRequest)
    (cs : List String) :
    ∀ (st : String → List CheckStatus) (k : String), cs.Nodup →
      (cs.foldl (fun st2 check => addRecord st2 check (mkRecord repo now names check p)) st) k =
        st k ++ (if k ∈ cs then [mkRecord repo now names k p] else []) := by
  induction cs with
  | nil => intro st k _; simp
  | cons c rest ih =>
    intro st k hnd
    have hnd' := List.nodup_cons.mp hnd
    rw [List.foldl_cons]
    by_cases hkc : k = c
    · subst hkc
      rw [ih _ _ hnd'.2]
      simp [addRecord, hnd'.1]
    · rw [ih _ _ hnd'.2, addRecord_other _ _ _ _ hkc]
      simp [List.mem_cons, hkc]

theorem processPulls_foldl (repo now : String) (names : String → String)
    (checks : List String) (hnd : checks.Nodup) (k : String) (hk : k ∈ checks)
    (pulls : List PullRequest) :
    ∀ (st : String → List CheckStatus),
      (pulls.foldl
        (fun st p =>
          if keepPull p then
            checks.foldl
              (fun st2 check => addRecord st2 check (mkRecord repo now names check p)) st
          else st) st) k =
        st k ++ (pulls.filter keepPull).map (mkRecord repo now names k) := by
  induction pulls with
  | nil => intro st; simp
  | cons p rest ih =>
    intro st
    rw [List.foldl_cons]
    by_cases hp : keepPull p
    · rw [if_pos hp, ih, foldChecks_apply repo now names p checks st k hnd]
      simp [List.filter_cons, hp, hk]
    · rw [if_neg hp, ih]
      simp [List.filter_cons, hp]

theorem processPulls_eq (repo now : String) (names : String → String)
    (checks : List String) (hnd : checks.Nodup) (k : String) (hk : k ∈ checks)
    (pulls : List PullRequest) :
    processPulls repo now names checks pulls k =
      (pulls.filter keepPull).map (mkRecord repo now names k) := by
  unfold processPulls
  rw [processPulls_foldl repo now names checks hnd k hk pulls]
  simp

theorem mkRecord_pr (repo now : String) (names : String → String) (check : String)
    (p : PullRequest) : (mkRecord repo now names check p).pr = p.number := by
  cases h : lookupContext p check <;> simp [mkRecord, h]

theorem sum_map_const_on {α : Type} {l : List α} {f : α → Nat} {L : Nat}
    (h : ∀ c ∈ l, f c = L) : (l.map f).sum = l.length * L := by
  induction l with
  | nil => simp
  | cons a t ih =>
    rw [List.map_cons, List.sum_cons, ih (fun c hc => h c (List.mem_cons_of_mem a hc)),
        h a (List.mem_cons_self a t), List.length_cons]
    ring

theorem dropWhile_eq_nil_of_no_slash (l : List Char) (h : '/' ∉ l) :
    l.dropWhile (fun c => !(c == '/')) = [] := by
  induction l with
  | nil => rfl
  | cons a t ih =>
    have ha : a ≠ '/' := fun e => h (e ▸ List.mem_cons_self a t)
    rw [List.dropWhile_cons_of_pos (by simp [ha])]
    exact ih (fun hm => h (List.mem_cons_of_mem _ hm))

theorem dropWhile_of_slash (l : List Char) (h : '/' ∈ l) :
    ∃ t, l.dropWhile (fun c => !(c == '/')) = '/' :: t := by
  induction l with
  | nil => cases h
  | cons a rest ih =>
    by_cases ha : a = '/'
    · subst ha
      exact ⟨rest, by rw [List.dropWhile_cons_of_neg (by simp)]⟩
    · have h' : '/' ∈ rest := by
        cases List.mem_cons.mp h with
        | inl he => exact absurd he.symm ha
        | inr hm => exact hm
      obtain ⟨t, ht⟩ := ih h'
      exact ⟨t, by rw [List.dropWhile_cons_of_pos (by simp [ha])]; exact ht⟩

/-- Claim C10: a repository argument without a `/` raises a `ValueError`
before any fetch is performed (the result is the same error for every
fetcher, and no status map is produced); with at least one `/` no such
error is raised, and the fetcher receives the text before the first `/`
as the owner and the remainder as the repository name. -/
theorem repo_slash_validation :
    (∀ (repo branch now : String) (fetch : String → String → String → List PullRequest)
        (checks : List String) (names : String → String),
      '/' ∉ repo.data →
      get_check_statuses repo branch now fetch checks names =
        Except.error "repository name must contain a slash") ∧
    (∀ (repo branch now : String) (fetch : String → String → String → List PullRequest)
        (checks : List String) (names : String → String),
      '/' ∈ repo.data →
      get_check_statuses repo branch now fetch checks names =
        Except.ok (processPulls repo now names checks
          (fetch (beforeFirstSlash repo) (afterFirstSlash repo) branch))) := by
  constructor
  · intro repo branch now fetch checks names h
    have hd := dropWhile_eq_nil_of_no_slash repo.data h
    unfold get_check_statuses partitionSlash
    rw [hd]
    rfl
  · intro repo branch now fetch checks names h
    obtain ⟨t, ht⟩ := dropWhile_of_slash repo.data h
    unfold get_check_statuses partitionSlash
    rw [ht]
    simp only [beforeFirstSlash, afterFirstSlash, ht, List.tail_cons]
    rfl

/-- A constant name table used by concrete instantiations. -/
def ciNames : String → String := fun _ => "check-ci-name"

/-- A fetcher returning no pull requests, used by concrete instantiations. -/
def emptyFetch : String → String → String → List PullRequest := fun _ _ _ => []

/-- Witness for claim C10: both branches of `repo_slash_validation`
exercised on concrete repositories. -/
theorem repo_slash_validation_witness :
    ('/' ∉ "norepo".data ∧
      get_check_statuses "norepo" "main" "T0" emptyFetch [] ciNames =
        Except.error "repository name must contain a slash") ∧
    ('/' ∈ "owner/repo".data ∧
      get_check_statuses "owner/repo" "main" "T0" emptyFetch [] ciNames =
        Except.ok (processPulls "owner/repo" "T0" ciNames []
          (emptyFetch (beforeFirstSlash "owner/repo") (afterFirstSlash "owner/repo") "main"))) :=
  ⟨⟨by decide, repo_slash_validation.1 "norepo" "main" "T0" emptyFetch [] ciNames (by decide)⟩,
   ⟨by decide, repo_slash_validation.2 "owner/repo" "main" "T0" emptyFetch [] ciNames (by decide)⟩⟩

/-- Claim C2: for every open, non-draft, non-`[WIP]` pull request and every
requested check name, classification produces exactly one record — per
check the status list is precisely the map of `mkRecord` over the kept pull
requests, so lengths are the kept-pull count, the total record count is
`|checks| × |kept pulls|`, and each record is the exactly-matching context
when one exists and otherwise the synthetic `EXPECTED` record timestamped
with the generation time `now`. -/
theorem classification_exactly_one_status_per_pair
    (repo branch now : String) (fetch : String → String → String → List PullRequest)
    (checks : List String) (names : String → String)
    (hs : (partitionSlash repo).2.1 ≠ "") (hnd : checks.Nodup) :
    (get_check_statuses repo branch now fetch checks names =
      Except.ok (processPulls repo now names checks
        (fetch (partitionSlash repo).1 (partitionSlash repo).2.2 branch))) ∧
    (∀ (pulls : List PullRequest) (check : String), check ∈ checks →
      processPulls repo now names checks pulls check =
        (pulls.filter keepPull).map (mkRecord repo now names check)) ∧
    (∀ (pulls : List PullRequest) (check : String), check ∈ checks →
      (processPulls repo now names checks pulls check).length =
        (pulls.filter keepPull).length) ∧
    (∀ (pulls : List PullRequest),
      (checks.map fun check => (processPulls repo now names checks pulls check).length).sum =
        checks.length * (pulls.filter keepPull).length) ∧
    (∀ (check : String) (p : PullRequest), lookupContext p check = none →
      mkRecord repo now names check p =
        { state := State.EXPECTED, context := check, createdAt := now, repo := repo,
          pr := p.number, commit_sha := p.commitSha, ci_name := names check,
          targetUrl := none }) ∧
    (∀ (check : String) (p : PullRequest) (c : Context), lookupContext p check = some c →
      mkRecord repo now names check p =
        { state := c.state, context := c.context, createdAt := c.createdAt, repo := repo,
          pr := p.number, commit_sha := p.commitSha, ci_name := names check,
          targetUrl := none }) := by
  refine ⟨?_, ?_, ?_, ?_, ?_, ?_⟩
  · simp [get_check_statuses, hs]
  · intro pulls check hk
    exact processPulls_eq repo now names checks hnd check hk pulls
  · intro pulls check hk
    rw [processPulls_eq repo now names checks hnd check hk pulls, List.length_map]
  · intro pulls
    exact sum_map_const_on (fun c hc => by
      rw [processPulls_eq repo now names checks hnd c hc pulls, List.length_map])
  · intro check p h
    simp [mkRecord, h]
  · intro check p c h
    simp [mkRecord, h]

/-- A context reported for check name `a`. -/
def ctxA : Context :=
  { context := "a", state := State.SUCCESS, createdAt := "2024-01-01T00:00:00Z" }

/-- An ordinary open pull request whose latest commit reports check `a`. -/
def pOk : PullRequest :=
  { number := 7, title := "Fix things", isDraft := false, commitSha := "sha7",
    statusContexts := some [ctxA] }

/-- A draft pull request. -/
def pDraft : PullRequest :=
  { number := 8, title := "Draft work", isDraft := true, commitSha := "sha8",
    statusContexts := some [] }

/-- A non-draft pull request titled with a leading `[WIP]` marker. -/
def pWip : PullRequest :=
  { number := 9, title := "[WIP] fix bug", isDraft := false, commitSha := "sha9",
    statusContexts := none }

/-- A fetcher returning one kept, one draft and one `[WIP]` pull request. -/
def c2fetch : String → String → String → List PullRequest := fun _ _ _ => [pOk, pDraft, pWip]

/-- Witness for claim C2 at a concrete repository, check list and fetch
result. -/
theorem classification_exactly_one_status_per_pair_witness :
    ((partitionSlash "o/r").2.1 ≠ "" ∧ List.Nodup ["a", "b"]) ∧
    (get_check_statuses "o/r" "main" "T0" c2fetch ["a", "b"] ciNames =
      Except.ok (processPulls "o/r" "T0" ciNames ["a", "b"]
        (c2fetch (partitionSlash "o/r").1 (partitionSlash "o/r").2.2 "main"))) ∧
    (processPulls "o/r" "T0" ciNames ["a", "b"] [pOk, pDraft, pWip] "a" =
      ([pOk, pDraft, pWip].filter keepPull).map (mkRecord "o/r" "T0" ciNames "a")) :=
  ⟨⟨by decide, by decide⟩,
   (classification_exactly_one_status_per_pair "o/r" "main" "T0" c2fetch ["a", "b"] ciNames
      (by decide) (by decide)).1,
   (classification_exactly_one_status_per_pair "o/r" "main" "T0" c2fetch ["a", "b"] ciNames
      (by decide) (by decide)).2.1 [pOk, pDraft, pWip] "a" (by decide)⟩

/-- Claim C5: a fetched pull request is excluded from classification output
if and only if its draft flag is set or its title starts with the exact
character sequence `[WIP]` — the numbers of the pull requests represented
in a check's status list are exactly those of the kept pull requests, the
filter tests precisely `draft ∨ title.startsWith "[WIP]"`, a non-draft pull
request titled `[WIP] fix bug` is excluded, and one with `[WIP]` only later
in the title is kept. -/
theorem wip_draft_filter (repo now : String) (names : String → String)
    (checks : List String) (pulls : List PullRequest) (check : String)
    (hnd : checks.Nodup) (hk : check ∈ checks) :
    ((processPulls repo now names checks pulls check).map (fun st => st.pr) =
      (pulls.filter keepPull).map (fun p => p.number)) ∧
    (∀ p : PullRequest, keepPull p = true ↔
      (p.isDraft = false ∧ strStartsWith p.title "[WIP]" = false)) ∧
    (keepPull { number := 1, title := "[WIP] fix bug", isDraft := false,
                commitSha := "sha1", statusContexts := none } = false) ∧
    (keepPull { number := 2, title := "fix bug [WIP]", isDraft := false,
                commitSha := "sha2", statusContexts := none } = true) := by
  refine ⟨?_, ?_, by decide, by decide⟩
  · rw [processPulls_eq repo now names checks hnd check hk pulls, List.map_map]
    exact List.map_congr_left (fun p _ => mkRecord_pr repo now names check p)
  · intro p
    simp [keepPull]

/-- Witness for claim C5 at a concrete check list and pull-request list. -/
theorem wip_draft_filter_witness :
    (List.Nodup ["a"] ∧ "a" ∈ ["a"]) ∧
    ((processPulls "o/r" "T0" ciNames ["a"] [pOk, pDraft, pWip] "a").map (fun st => st.pr) =
      ([pOk, pDraft, pWip].filter keepPull).map (fun p => p.number)) ∧
    (keepPull { number := 1, title := "[WIP] fix bug", isDraft := false,
                commitSha := "sha1", statusContexts := none } = false) ∧
    (keepPull { number := 2, title := "fix bug [WIP]", isDraft := false,
                commitSha := "sha2", statusContexts := none } = true) :=
  ⟨⟨by decide, by decide⟩,
   (wip_draft_filter "o/r" "T0" ciNames ["a"] [pOk, pDraft, pWip] "a"
      (by decide) (by decide)).1,
   (wip_draft_filter "o/r" "T0" ciNames ["a"] [pOk, pDraft, pWip] "a"
      (by decide) (by decide)).2.2.1,
   (wip_draft_filter "o/r" "T0" ciNames ["a"] [pOk, pDraft, pWip] "a"
      (by decide) (by decide)).2.2.2⟩

/-- A parsed `.env` file: an insertion-ordered association list standing for
a Python dict; a later binding of the same key shadows an earlier one, so
`dict.update` / `d1 | d2` is list append. -/
abbrev EnvDict : Type := List (String × String)

/-- Python `dict[k]` / `dict.get(k)`: the value of the last binding of `k`. -/
def dictGet (d : EnvDict) (k : String) : Option String :=
  (d.reverse.find? (fun kv => kv.1 == k)).map (fun kv => kv.2)

theorem dictGet_append (a b : EnvDict) (k : String) :
    dictGet (a ++ b) k = Option.or (dictGet b k) (dictGet a k) := by
  unfold dictGet
  rw [List.reverse_append, List.find?_append, Option.map_or']

/-- The defaults dict of `checks.py` lines 104-105:
`{path[:-1]: variables for path, variables in env_files if path[-1] ==
'DEFAULTS.env'}`, keyed by the directory path.  Paths come from directory
listings and are nonempty. -/
def defaultsOf (envFiles : List (List String × EnvDict)) : List (List String × EnvDict) :=
  envFiles.filterMap (fun pv =>
    if pv.1.getLast? = some "DEFAULTS.env" then some (pv.1.dropLast, pv.2) else none)

/-- `defaults.get(key, {})`: a missing level contributes the empty dict. -/
def defaultsGet (defs : List (List String × EnvDict)) (key : List String) : EnvDict :=
  (((defs.reverse).find? (fun kv => kv.1 == key)).map (fun kv => kv.2)).getD []

/-- The merge of `checks.py` lines 112-116: start from `{}`, then
`check.update(defaults.get((), {}))`, `check.update(defaults.get((role,),
{}))`, `check.update(defaults.get((role, container), {}))`,
`check.update(variables)` — lowest to highest precedence. -/
def mergedVars (defs : List (List String × EnvDict)) (role container : String)
    (fileVars : EnvDict) : EnvDict :=
  ((defaultsGet defs [] ++ defaultsGet defs [role]) ++ defaultsGet defs [role, container])
    ++ fileVars

/-- The merge of `overview.py` lines 120-131: `check = {}` then
`check.update(parse_env_file(p))` for each of the four candidate paths that
exists (root `DEFAULTS.env`, role `DEFAULTS.env`, role/container
`DEFAULTS.env`, the check's own file, in that order); a missing level is
skipped, i.e. contributes nothing. -/
def overviewMergedConfig (rootD roleD contD : Option EnvDict) (own : EnvDict) : EnvDict :=
  ((rootD.getD [] ++ roleD.getD []) ++ contD.getD []) ++ own

/-- The `Check` dataclass of `checks.py` lines 56-62. -/
structure Check where
  short_name : String
  name : String
  repository : String
  branch : String
deriving DecidableEq, Repr

/-- Python `str.removesuffix`, character-wise. -/
def removeSuffix (s suf : String) : String :=
  if suf.data.isSuffixOf s.data then String.mk (s.data.take (s.data.length - suf.data.length))
  else s

/-- One iteration of the loop of `checks.py` lines 107-122: `DEFAULTS.env`
leaves are skipped (`ok none`); any other path is unpacked as
`role, container, filename = path` (a `ValueError` otherwise); the merged
configuration must supply `CHECK_NAME`, `PR_REPO` and `PR_BRANCH`, the
first missing one raising a `KeyError` (which, uncaught, aborts the whole
resolution pass). -/
def resolveFile (defs : List (List String × EnvDict)) (pv : List String × EnvDict) :
    Except String (Option Check) :=
  if pv.1.getLast? = some "DEFAULTS.env" then Except.ok none
  else
    match pv.1 with
    | [role, container, filename] =>
      let check := mergedVars defs role container pv.2
      match dictGet check "CHECK_NAME", dictGet check "PR_REPO", dictGet check "PR_BRANCH" with
      | some nm, some rp, some br =>
        Except.ok (some { short_name := removeSuffix filename ".env",
                          name := nm, repository := rp, branch := br })
      | none, _, _ => Except.error "KeyError: CHECK_NAME"
      | some _, none, _ => Except.error "KeyError: PR_REPO"
      | some _, some _, none => Except.error "KeyError: PR_BRANCH"
    | _ => Except.error "ValueError: not enough values to unpack"

/-- The `for path, variables in env_files` loop of `checks.py` lines
107-122, accumulating the `checks` list; an uncaught exception in one
iteration ends the loop and the whole call. -/
def resolveAll (defs : List (List String × EnvDict)) :
    List (List String × EnvDict) → List Check → Except String (List Check)
  | [], acc => Except.ok acc
  | pv :: rest, acc =>
    match resolveFile defs pv with
    | Except.error e => Except.error e
    | Except.ok none => resolveAll defs rest acc
    | Except.ok (some c) => resolveAll defs rest (acc ++ [c])

/-- `get_all_checks` from `checks.py` lines 89-123 (the tree-walk and
GraphQL transport stripped away: the input is the listed `.env` files with
their parsed contents). -/
def get_all_checks (envFiles : List (List String × EnvDict)) : Except String (List Check) :=
  resolveAll (defaultsOf envFiles) envFiles []

/-- Claim C1: the configuration resolved for a check file is the
right-biased union of root defaults, role defaults, role+container defaults
and the check's own file — for every key, lookup prefers the value from the
most specific level that defines it, and a missing level (the empty dict in
`checks.py`, a skipped path in `overview.py`) contributes nothing. -/
theorem merged_config_is_right_biased_union :
    (∀ (defs : List (List String × EnvDict)) (role container : String)
        (fileVars : EnvDict) (k : String),
      dictGet (mergedVars defs role container fileVars) k =
        Option.or (dictGet fileVars k)
          (Option.or (dictGet (defaultsGet defs [role, container]) k)
            (Option.or (dictGet (defaultsGet defs [role]) k)
              (dictGet (defaultsGet defs []) k)))) ∧
    (∀ (rootD roleD contD : Option EnvDict) (own : EnvDict) (k : String),
      dictGet (overviewMergedConfig rootD roleD contD own) k =
        Option.or (dictGet own k)
          (Option.or (dictGet (contD.getD []) k)
            (Option.or (dictGet (roleD.getD []) k)
              (dictGet (rootD.getD []) k)))) ∧
    (∀ k : String, dictGet ([] : EnvDict) k = none) := by
  refine ⟨?_, ?_, fun _ => rfl⟩
  · intro defs role container fileVars k
    simp [mergedVars, dictGet_append, Option.or_assoc]
  · intro rootD roleD contD own k
    simp [overviewMergedConfig, dictGet_append, Option.or_assoc]

theorem resolveAll_error_of_mem (defs : List (List String × EnvDict))
    (l : List (List String × EnvDict)) (pv : List String × EnvDict) (e : String)
    (hpv : pv ∈ l) (he : resolveFile defs pv = Except.error e) :
    ∀ acc, ∃ msg, resolveAll defs l acc = Except.error msg := by
  induction l with
  | nil => cases hpv
  | cons hfile t ih =>
    intro acc
    cases hres : resolveFile defs hfile with
    | error e2 => exact ⟨e2, by simp [resolveAll, hres]⟩
    | ok o =>
      have hpv' : pv ∈ t := by
        cases List.mem_cons.mp hpv with
        | inl heq => rw [heq, hres] at he; cases he
        | inr hm => exact hm
      cases o with
      | none =>
        obtain ⟨msg, hmsg⟩ := ih hpv' acc
        exact ⟨msg, by simp [resolveAll, hres, hmsg]⟩
      | some c =>
        obtain ⟨msg, hmsg⟩ := ih hpv' (acc ++ [c])
        exact ⟨msg, by simp [resolveAll, hres, hmsg]⟩

/-- Claim C4, amended: a check file whose merged configuration lacks
`CHECK_NAME`, `PR_REPO` or `PR_BRANCH` raises an uncaught `KeyError`, which
aborts the entire resolution pass — the result is an error and no catalog
at all is produced, rather than the offending check being dropped and the
others resolved. -/
theorem missing_key_aborts_resolution
    (envFiles : List (List String × EnvDict)) (role container filename : String)
    (vars : EnvDict)
    (hmem : (([role, container, filename], vars) : List String × EnvDict) ∈ envFiles)
    (hnotdef : filename ≠ "DEFAULTS.env")
    (hmiss :
      dictGet (mergedVars (defaultsOf envFiles) role container vars) "CHECK_NAME" = none ∨
      dictGet (mergedVars (defaultsOf envFiles) role container vars) "PR_REPO" = none ∨
      dictGet (mergedVars (defaultsOf envFiles) role container vars) "PR_BRANCH" = none) :
    ∃ msg, get_all_checks envFiles = Except.error msg := by
  have hfail : ∃ e, resolveFile (defaultsOf envFiles) ([role, container, filename], vars) =
      Except.error e := by
    unfold resolveFile
    have hlast : ([role, container, filename] : List String).getLast? ≠ some "DEFAULTS.env" := by
      simp [List.getLast?, hnotdef]
    rw [if_neg hlast]
    cases hn : dictGet (mergedVars (defaultsOf envFiles) role container vars) "CHECK_NAME" with
    | none => exact ⟨"KeyError: CHECK_NAME", by simp [hn]⟩
    | some nm =>
      cases hr : dictGet (mergedVars (defaultsOf envFiles) role container vars) "PR_REPO" with
      | none => exact ⟨"KeyError: PR_REPO", by simp [hn, hr]⟩
      | some rp =>
        cases hb : dictGet (mergedVars (defaultsOf envFiles) role container vars) "PR_BRANCH" with
        | none => exact ⟨"KeyError: PR_BRANCH", by simp [hn, hr, hb]⟩
        | some br =>
          rw [hn, hr, hb] at hmiss
          rcases hmiss with h | h | h <;> cases h
  obtain ⟨e, he⟩ := hfail
  exact resolveAll_error_of_mem (defaultsOf envFiles) envFiles _ e hmem he []

/-- The variables of a check file that forgot `CHECK_NAME`. -/
def c4badVars : EnvDict := [("PR_REPO", "acme/widgets"), ("PR_BRANCH", "main")]

/-- A check file whose merged configuration lacks `CHECK_NAME`. -/
def c4bad : List String × EnvDict := (["role1", "cont1", "broken.env"], c4badVars)

/-- A complete, well-formed check file. -/
def c4good : List String × EnvDict :=
  (["role1", "cont1", "good.env"],
   [("CHECK_NAME", "build"), ("PR_REPO", "acme/widgets"), ("PR_BRANCH", "main")])

/-- Claim C4, counterexample: with one broken file and one complete file in
the tree, resolution returns a `KeyError` and resolves nothing — the
complete file, which resolves fine on its own, is not resolved — refuting
the claim that the failure is isolated to the offending file. -/
theorem missing_key_aborts_resolution_cex :
    get_all_checks [c4bad, c4good] = Except.error "KeyError: CHECK_NAME" ∧
    get_all_checks [c4good] =
      Except.ok [{ short_name := "good", name := "build", repository := "acme/widgets",
                   branch := "main" }] := by
  constructor <;> rfl

/-- Witness for the amended claim C4 at the concrete two-file tree. -/
theorem missing_key_aborts_resolution_witness :
    ((([ "role1", "cont1", "broken.env"], c4badVars) : List String × EnvDict) ∈
        [c4bad, c4good] ∧
      "broken.env" ≠ "DEFAULTS.env" ∧
      dictGet (mergedVars (defaultsOf [c4bad, c4good]) "role1" "cont1" c4badVars)
          "CHECK_NAME" = none) ∧
    (∃ msg, get_all_checks [c4bad, c4good] = Except.error msg) :=
  ⟨⟨by decide, by decide, by decide⟩,
   missing_key_aborts_resolution [c4bad, c4good] "role1" "cont1" "broken.env" c4badVars
     (by decide) (by decide) (Or.inl (by decide))⟩

/-- Python string `<`, character-wise on code points: the lexicographic
comparison Python uses when sorting by the `createdAt` key. -/
def charListLt : List Char → List Char → Bool
  | [], [] => false
  | [], _ :: _ => true
  | _ :: _, [] => false
  | a :: as, b :: bs =>
    if a.toNat < b.toNat then true
    else if b.toNat < a.toNat then false
    else charListLt as bs

/-- Python `a < b` on strings. -/
def strLt (a b : String) : Bool := charListLt a.data b.data

/-- The key order of the in-place sort at `overview.py` line 145:
`pr_statuses.sort(key=lambda c: c['createdAt'], reverse=True)` puts `a`
before `b` when `a`'s timestamp is not strictly smaller than `b`'s (so
equal keys keep their original relative order: the sort is stable). -/
def statusGE (a b : CheckStatus) : Prop := strLt a.createdAt b.createdAt = false

instance : DecidableRel statusGE :=
  fun a b => inferInstanceAs (Decidable (strLt a.createdAt b.createdAt = false))

/-- The stable descending sort performed in place by `overview.py` line 145.
Python's sort is stable; a stable insertion sort on the same key order is
extensionally the same reordering. -/
def sortStatuses (l : List CheckStatus) : List CheckStatus :=
  l.insertionSort statusGE

/-- ANSI colour selection from `overview.py` `format_status` (lines
179-185), the standalone script's own palette. -/
def overview_colour : State → String
  | .PENDING => "33"
  | .EXPECTED => "35"
  | .SUCCESS => "32"
  | .FAILURE => "31"
  | .ERROR => "31;1"

/-- The result URL of `overview.py` `format_status` lines 166-175: built
only for finished states, by joining the build-log host, repository, pull
request number, commit sha, CI name and page with `/`. -/
def overview_status_url (st : CheckStatus) : Option String :=
  if st.state = State.SUCCESS ∨ st.state = State.FAILURE ∨ st.state = State.ERROR then
    some (String.intercalate "/"
      ["https://ali-ci.cern.ch/alice-build-logs", st.repo, toString st.pr,
       st.commit_sha, st.ci_name, "pretty.html"])
  else none

/-- `format_status` from `overview.py` lines 158-194: optional hyperlink
escape for finished checks, the colour code, an optional `;7` reverse-video
marker for recent statuses, the cell text, and the reset code. -/
def overview_format_status (recentCutoff : String) (st : CheckStatus) (text : String) :
    String :=
  let url := overview_status_url st
  let openUrl := match url with
    | some u => "\x1b]8;;" ++ u ++ "\x1b\\"
    | none => ""
  let closeUrl := match url with
    | some _ => "\x1b]8;;\x1b\\"
    | none => ""
  let recent := if isRecent st.createdAt recentCutoff then ";7" else ""
  openUrl ++ "\x1b[" ++ overview_colour st.state ++ recent ++ "m" ++ text ++ closeUrl
    ++ "\x1b[0m"

/-- `format_table_row` from `overview.py` lines 207-211: double indent, then
the formatted cells joined by the separator. -/
def format_table_row (recentCutoff : String) (items : List (CheckStatus × String)) : String :=
  INDENT ++ INDENT ++
    String.intercalate SEPARATOR
      (items.map (fun cell => overview_format_status recentCutoff cell.1 cell.2))

/-- The cell label `'#{:Nd}'.format(pr)` of `overview.py` line 153: a hash
sign followed by the number right-justified to the digit width. -/
def prLabel (width : Nat) (pr : Nat) : String :=
  let s := toString pr
  "#" ++ String.mk (List.replicate (width - s.length) ' ') ++ s

/-- Maximal runs of consecutive elements on which the comparison holds
pairwise, as `itertools.groupby` groups consecutive items with equal keys. -/
def runsBy (f : α → α → Bool) : List α → List (List α)
  | [] => []
  | [a] => [[a]]
  | a :: b :: rest =>
    match runsBy f (b :: rest) with
    | [] => [[a]]
    | g :: gs => if f a b then (a :: g) :: gs else [a] :: g :: gs

/-- The rendering part of `overview.py` `output_check_table` lines 146-155,
operating on the already-sorted list: `prnum_len = 1 + floor(log10(max
pr))` (Python raises `ValueError` on an empty sequence or a zero maximum),
the `items_per_row` division (Python raises `ZeroDivisionError` when it is
zero), and the `itertools.groupby(enumerate(...), key=i // items_per_row)`
row grouping.  The digit count of a positive maximum is modelled with
`Nat.log`. -/
def renderRows (sorted : List CheckStatus) (recentCutoff : String) (terminalWidth : Int) :
    Except String (List String) :=
  match (sorted.map (fun c => c.pr)).max? with
  | none => Except.error "ValueError: max() arg is an empty sequence"
  | some 0 => Except.error "ValueError: math domain error"
  | some m =>
    let prnumLen := Nat.log 10 m + 1
    let ipr := itemsPerRow terminalWidth prnumLen
    if ipr = 0 then Except.error "ZeroDivisionError: integer division or modulo by zero"
    else Except.ok
      ((runsBy (fun x y => Int.fdiv (x.1 : Int) ipr == Int.fdiv (y.1 : Int) ipr)
          sorted.enum).map
        (fun row => format_table_row recentCutoff
          (row.map (fun ix => (ix.2, prLabel prnumLen ix.2.pr)))))

/-- `output_check_table` from `overview.py` lines 143-155.  The first line
sorts the caller's list in place; the in-place mutation is modelled by
state passing: the first component of the result is the caller's list as it
stands after the call (the sort happens before any of the possible
exceptions), the second the printed rows or the raised error. -/
def output_check_table (prStatuses : List CheckStatus) (recentCutoff : String)
    (terminalWidth : Int) : List CheckStatus × Except String (List String) :=
  let sorted := sortStatuses prStatuses
  (sorted, renderRows sorted recentCutoff terminalWidth)

/-- An older status, placed first in the counterexample input. -/
def s8a : CheckStatus :=
  { state := State.SUCCESS, context := "a", createdAt := "2024-01-01T00:00:00Z",
    repo := "o/r", pr := 1, commit_sha := "s1", ci_name := "ci" }

/-- A newer status, placed second in the counterexample input. -/
def s8b : CheckStatus :=
  { state := State.PENDING, context := "a", createdAt := "2024-01-02T00:00:00Z",
    repo := "o/r", pr := 2, commit_sha := "s2", ci_name := "ci" }

/-- Claim C8, counterexample: the claim says the caller's list is unchanged
(same elements in the same order) after the table operation returns, but
`output_check_table` sorts it in place: passing the older status first, the
caller's list afterwards holds the two statuses in the opposite order. -/
theorem table_mutates_input_cex :
    (output_check_table [s8a, s8b] "2024-01-01T12:00:00Z" 80).1 ≠ [s8a, s8b] := by decide

/-- Claim C8, amended: rendering is a pure, deterministic function of the
status list, the digit width and the available width in this embedding, but
the caller's list is not left unchanged — after the call it holds the same
elements (a permutation) reordered into the stable `createdAt`-descending
order. -/
theorem table_sorts_input_inplace (l : List CheckStatus) (cutoff : String) (w : Int) :
    (output_check_table l cutoff w).1 = sortStatuses l ∧
    List.Perm (output_check_table l cutoff w).1 l := by
  exact ⟨rfl, List.perm_insertionSort statusGE l⟩

/-- One published snapshot: the two module-level documents of `http.py`
(`metrics_page` and `html_page`), each a complete rendered document. -/
structure Snapshot where
  metrics_page : String
  html_page : String
deriving DecidableEq, Repr

/-- The sequence of shared-global states during one refresh iteration of
`http.py` `regenerate_output` (lines 142-146): starting from the previously
published snapshot, the worker assigns `metrics_page` and then `html_page`
— two separate whole-reference replacements, with no lock; a reader
(`do_GET`) may run between them and observes one of these states. -/
def publishStates (old next : Snapshot) : List Snapshot :=
  [old, { old with metrics_page := next.metrics_page }, next]

/-- The reader of `CIOverviewServer.do_GET` (`http.py` lines 167-175): a
request returns the current value of the single referenced document, whole;
an unknown path gets a client error. -/
def pageFor (s : Snapshot) (path : String) : Except String String :=
  if path = "/" then Except.ok s.html_page
  else if path = "/metrics" then Except.ok s.metrics_page
  else Except.error "404: Nothing found"

/-- Claim C9, counterexample: publication is not a single atomic
replacement of one shared snapshot reference: between the two assignments
the shared state pairs the new metrics document with the old HTML document,
a state equal to neither the previous nor the new complete snapshot. -/
theorem publish_not_single_atomic_cex :
    ({ metrics_page := "m1", html_page := "h0" } : Snapshot) ∈
      publishStates { metrics_page := "m0", html_page := "h0" }
        { metrics_page := "m1", html_page := "h1" } ∧
    ({ metrics_page := "m1", html_page := "h0" } : Snapshot) ≠
      { metrics_page := "m0", html_page := "h0" } ∧
    ({ metrics_page := "m1", html_page := "h0" } : Snapshot) ≠
      { metrics_page := "m1", html_page := "h1" } := by
  refine ⟨?_, by decide, by decide⟩
  simp [publishStates]

/-- Claim C9, amended: the worker publishes by two successive
whole-reference replacements (metrics first, then HTML), so a reader may
pair the new metrics with the old HTML; but each individual document
reference always holds a complete old or new document in every observable
state, and a read is a total function of the current state — it never
blocks on the refresh pipeline. -/
theorem publish_per_document_complete (old next s : Snapshot)
    (hs : s ∈ publishStates old next) :
    (s.metrics_page = old.metrics_page ∨ s.metrics_page = next.metrics_page) ∧
    (s.html_page = old.html_page ∨ s.html_page = next.html_page) ∧
    (∀ path, pageFor s path = Except.ok s.html_page ∨
      pageFor s path = Except.ok s.metrics_page ∨
      pageFor s path = Except.error "404: Nothing found") := by
  have hcases : s = old ∨ s = { old with metrics_page := next.metrics_page } ∨ s = next := by
    simpa [publishStates] using hs
  have hpages : ∀ path, pageFor s path = Except.ok s.html_page ∨
      pageFor s path = Except.ok s.metrics_page ∨
      pageFor s path = Except.error "404: Nothing found" := by
    intro path
    unfold pageFor
    by_cases h1 : path = "/"
    · simp [h1]
    · by_cases h2 : path = "/metrics" <;> simp [h1, h2]
  rcases hcases with h | h | h <;> subst h <;> exact ⟨by simp, by simp, hpages⟩

/-- Witness for the amended claim C9 at the concrete intermediate state. -/
theorem publish_per_document_complete_witness :
    (({ metrics_page := "m1", html_page := "h0" } : Snapshot) ∈
      publishStates { metrics_page := "m0", html_page := "h0" }
        { metrics_page := "m1", html_page := "h1" }) ∧
    (("m1" = "m0" ∨ "m1" = "m1") ∧ ("h0" = "h0" ∨ "h0" = "h1")) :=
  ⟨by simp [publishStates],
   ⟨(publish_per_document_complete { metrics_page := "m0", html_page := "h0" }
       { metrics_page := "m1", html_page := "h1" }
       { metrics_page := "m1", html_page := "h0" } (by simp [publishStates])).1,
    (publish_per_document_complete { metrics_page := "m0", html_page := "h0" }
       { metrics_page := "m1", html_page := "h1" }
       { metrics_page := "m1", html_page := "h0" } (by simp [publishStates])).2.1⟩⟩

end CIOverview
